import Mathlib

/-!
Shallow embedding of the resource estimator (pkg/estimator/estimator.go).

Floating point values (`float64` in the source) are modelled as rationals,
timestamps (`time.Time`) as integers, and Go's `int64(x)` float-to-integer
conversion as truncation toward zero.  The registry map is modelled as an
association list; the logger and the locks (the model is sequential state
passing) are omitted.
-/

/-- ResourceUsage tracks resource usage over time (estimator.go lines 13-19). -/
structure ResourceUsage where
  timestamp : ℤ
  cpu : ℚ
  memory : ℚ
  gpu : ℚ
deriving DecidableEq

/-- GroupHistory maintains historical resource usage for a job group
(estimator.go lines 21-28); the mutex is omitted in this sequential model. -/
structure GroupHistory where
  groupName : String
  nspace : String
  history : List ResourceUsage
  maxSize : ℕ
deriving DecidableEq

/-- NewGroupHistory creates a new group history tracker (lines 30-38). -/
def NewGroupHistory (groupName nspace : String) (maxSize : ℕ) : GroupHistory :=
  { groupName := groupName, nspace := nspace, history := [], maxSize := maxSize }

/-- AddUsage records a new resource usage datapoint (lines 40-58): append the
stamped sample, then keep only `maxSize` entries by dropping the head (FIFO). -/
def AddUsage (gh : GroupHistory) (now : ℤ) (cpu memory gpu : ℚ) : GroupHistory :=
  let usage : ResourceUsage := { timestamp := now, cpu := cpu, memory := memory, gpu := gpu }
  let h := gh.history ++ [usage]
  if h.length > gh.maxSize then { gh with history := h.drop 1 }
  else { gh with history := h }

/-- `AddUsage` taking the sample as one value (the Go call site stamps the
current time; here the timestamp travels inside the sample). -/
def addSample (gh : GroupHistory) (u : ResourceUsage) : GroupHistory :=
  AddUsage gh u.timestamp u.cpu u.memory u.gpu

/-- GetAverage returns average resource usage (lines 60-82): all-zero when the
history is empty, otherwise the per-dimension accumulated total divided by the
sample count. -/
def GetAverage (gh : GroupHistory) : ResourceUsage :=
  if gh.history.length = 0 then { timestamp := 0, cpu := 0, memory := 0, gpu := 0 }
  else
    let totalCPU := gh.history.foldl (fun acc u => acc + u.cpu) 0
    let totalMem := gh.history.foldl (fun acc u => acc + u.memory) 0
    let totalGPU := gh.history.foldl (fun acc u => acc + u.gpu) 0
    let count : ℚ := gh.history.length
    { timestamp := 0, cpu := totalCPU / count, memory := totalMem / count,
      gpu := totalGPU / count }

/-- One step of the GetPeak loop (lines 94-104): raise each component of the
accumulator that the visited sample exceeds. -/
def peakStep (peak u : ResourceUsage) : ResourceUsage :=
  { peak with
    cpu := if u.cpu > peak.cpu then u.cpu else peak.cpu,
    memory := if u.memory > peak.memory then u.memory else peak.memory,
    gpu := if u.gpu > peak.gpu then u.gpu else peak.gpu }

/-- GetPeak returns peak resource usage (lines 84-107): all-zero when empty,
otherwise the loop starting from `History[0]` that keeps the component-wise
maximum seen so far. -/
def GetPeak (gh : GroupHistory) : ResourceUsage :=
  match gh.history with
  | [] => { timestamp := 0, cpu := 0, memory := 0, gpu := 0 }
  | p :: t => (p :: t).foldl peakStep p

/-- Estimator predicts resource needs based on historical patterns
(lines 109-115); the logger and mutex are omitted. -/
structure ResourceEstimator where
  histories : List (String × GroupHistory)
  maxSize : ℕ
deriving DecidableEq

/-- NewEstimator creates a new resource estimator (lines 117-127). -/
def NewEstimator (maxHistorySize : ℕ) : ResourceEstimator :=
  { histories := [], maxSize := maxHistorySize }

/-- The composite registry key `namespace/groupName` (fmt.Sprintf at line 131). -/
def estimatorKey (nspace groupName : String) : String :=
  nspace ++ "/" ++ groupName

/-- Map lookup `e.histories[key]` on the association-list model. -/
def findHistory (l : List (String × GroupHistory)) (k : String) : Option GroupHistory :=
  match l with
  | [] => none
  | p :: rest => if p.1 = k then some p.2 else findHistory rest k

/-- In-place update of the entry at `k` (the Go code mutates the looked-up
`*GroupHistory` through its pointer). -/
def updateEntry (l : List (String × GroupHistory)) (k : String)
    (f : GroupHistory → GroupHistory) : List (String × GroupHistory) :=
  l.map (fun p => if p.1 = k then (p.1, f p.2) else p)

/-- RecordUsage records resource usage for a group (lines 129-149): get or
create the History for the key, then AddUsage on that entry. -/
def RecordUsage (e : ResourceEstimator) (now : ℤ) (nspace groupName : String)
    (cpu memory gpu : ℚ) : ResourceEstimator :=
  let key := estimatorKey nspace groupName
  let hs :=
    if (findHistory e.histories key).isSome then e.histories
    else e.histories ++ [(key, NewGroupHistory groupName nspace e.maxSize)]
  { e with histories := updateEntry hs key (fun h => AddUsage h now cpu memory gpu) }

/-- The `corev1.ResourceList` built by EstimateResources: a CPU quantity in
milli-cores, a memory quantity in bytes, and an optional accelerator count. -/
structure ResourceList where
  cpuMilli : ℤ
  memoryBytes : ℤ
  gpu : Option ℤ
deriving DecidableEq

/-- Go's `int64(x)` conversion of a float: truncation toward zero. -/
def goInt64 (q : ℚ) : ℤ :=
  if 0 ≤ q then ⌊q⌋ else ⌈q⌉

/-- EstimateResources predicts resource needs for a group (lines 151-192):
`NotFound` (here `none`) when the key is absent, otherwise the 70/30 weighted
combination of average and peak, with the GPU entry only when positive. -/
def EstimateResources (e : ResourceEstimator) (nspace groupName : String) : Option ResourceList :=
  match findHistory e.histories (estimatorKey nspace groupName) with
  | none => none
  | some history =>
    let avg := GetAverage history
    let peak := GetPeak history
    let estimatedCPU := avg.cpu * 0.7 + peak.cpu * 0.3
    let estimatedMem := avg.memory * 0.7 + peak.memory * 0.3
    let estimatedGPU := avg.gpu * 0.7 + peak.gpu * 0.3
    some { cpuMilli := goInt64 (estimatedCPU * 1000),
           memoryBytes := goInt64 estimatedMem,
           gpu := if estimatedGPU > 0 then some (goInt64 estimatedGPU) else none }

/-- GetHistory returns the history for a specific group (lines 194-203); the
second component is the estimator after the call (it only reads, so it is
returned unchanged). -/
def GetHistory (e : ResourceEstimator) (nspace groupName : String) :
    Option GroupHistory × ResourceEstimator :=
  (findHistory e.histories (estimatorKey nspace groupName), e)

/-- The removal test of the CleanOldHistory loop (line 215):
`len(History) > 0 && History[len-1].Timestamp.Before(cutoff)`. -/
def cleanRemove (cutoff : ℤ) (p : String × GroupHistory) : Bool :=
  decide (0 < p.2.history.length) &&
    (match p.2.history.getLast? with
     | some u => decide (u.timestamp < cutoff)
     | none => false)

/-- CleanOldHistory removes histories older than the given duration
(lines 205-224): drops every entry passing `cleanRemove` against the cutoff
`now - maxAge` and returns the number removed. -/
def CleanOldHistory (e : ResourceEstimator) (now maxAge : ℤ) : ResourceEstimator × ℕ :=
  let cutoff := now - maxAge
  ({ e with histories := e.histories.filter (fun p => !(cleanRemove cutoff p)) },
   (e.histories.filter (fun p => cleanRemove cutoff p)).length)

/-- One RecordUsage call's arguments. -/
structure RecordCall where
  now : ℤ
  nspace : String
  groupName : String
  cpu : ℚ
  memory : ℚ
  gpu : ℚ
deriving DecidableEq

/-- A fresh estimator after a sequence of RecordUsage calls. -/
def applyCalls (maxHistorySize : ℕ) (calls : List RecordCall) : ResourceEstimator :=
  calls.foldl
    (fun e c => RecordUsage e c.now c.nspace c.groupName c.cpu c.memory c.gpu)
    (NewEstimator maxHistorySize)

/-- Spec-side predicate for the retention sweep: the History has a most recent
sample and that sample is older than the cutoff. -/
def specOld (cutoff : ℤ) (gh : GroupHistory) : Bool :=
  match gh.history.getLast? with
  | none => false
  | some u => decide (u.timestamp < cutoff)

/-- Namespace string used in concrete scenarios. -/
def tNS : String := "default"

/-- Group-name string used in concrete scenarios. -/
def tG : String := "workers"

/-! ### Helper lemmas about AddUsage and the bounded history -/

lemma addSample_history (gh : GroupHistory) (u : ResourceUsage) :
    (addSample gh u).history =
      if gh.history.length + 1 > gh.maxSize then (gh.history ++ [u]).drop 1
      else gh.history ++ [u] := by
  simp only [addSample, AddUsage, List.length_append, List.length_cons,
    List.length_nil, Nat.zero_add]
  split <;> rfl

lemma addSample_maxSize (gh : GroupHistory) (u : ResourceUsage) :
    (addSample gh u).maxSize = gh.maxSize := by
  simp only [addSample, AddUsage]
  split <;> rfl

lemma foldl_addSample_spec (l : List ResourceUsage) :
    ∀ gh : GroupHistory, gh.history.length ≤ gh.maxSize →
      (l.foldl addSample gh).history =
        (gh.history ++ l).drop (gh.history.length + l.length - gh.maxSize) ∧
      (l.foldl addSample gh).maxSize = gh.maxSize := by
  induction l with
  | nil =>
    intro gh hle
    refine ⟨?_, rfl⟩
    simp [Nat.sub_eq_zero_of_le hle]
  | cons u rest ih =>
    intro gh hle
    have hstep := addSample_history gh u
    have hms := addSample_maxSize gh u
    by_cases hcap : gh.history.length + 1 > gh.maxSize
    · have hn : gh.history.length = gh.maxSize := by omega
      rw [if_pos hcap] at hstep
      have hlen1 : (addSample gh u).history.length ≤ (addSample gh u).maxSize := by
        rw [hstep, hms]
        simp only [List.length_drop, List.length_append, List.length_cons, List.length_nil]
        omega
      obtain ⟨h1, h2⟩ := ih (addSample gh u) hlen1
      rw [List.foldl_cons]
      refine ⟨?_, by rw [h2, hms]⟩
      rw [h1, hstep, hms]
      have hdrop : ((gh.history ++ [u]) ++ rest).drop 1 =
          (gh.history ++ [u]).drop 1 ++ rest :=
        List.drop_append_of_le_length (by simp)
      rw [← hdrop, List.drop_drop, ← List.append_cons]
      congr 1
      simp only [List.length_drop, List.length_append, List.length_cons, List.length_nil]
      omega
    · rw [if_neg hcap] at hstep
      have hlen1 : (addSample gh u).history.length ≤ (addSample gh u).maxSize := by
        rw [hstep, hms]
        simp only [List.length_append, List.length_cons, List.length_nil, Nat.zero_add]
        omega
      obtain ⟨h1, h2⟩ := ih (addSample gh u) hlen1
      rw [List.foldl_cons]
      refine ⟨?_, by rw [h2, hms]⟩
      rw [h1, hstep, hms, ← List.append_cons]
      congr 1
      simp only [List.length_append, List.length_cons, List.length_nil, Nat.zero_add]
      omega

/-- C2: For any sequence of N `AddUsage` calls to one History created with
capacity C, the final sample sequence is exactly the most-recently-appended
`min(N, C)` samples in append order (the suffix of the call sequence), its
length is `min(N, C)`, and after every intermediate operation the length stays
at most the capacity (the oldest sample is the one evicted, as the suffix
formula shows). -/
theorem claim_C2_bounded_fifo (C : ℕ) (gn ns : String) (samples : List ResourceUsage) :
    (samples.foldl addSample (NewGroupHistory gn ns C)).history =
      samples.drop (samples.length - C) ∧
    (samples.foldl addSample (NewGroupHistory gn ns C)).history.length =
      min samples.length C ∧
    ∀ k : ℕ, (((samples.take k).foldl addSample (NewGroupHistory gn ns C)).history.length ≤ C) := by
  have base : (NewGroupHistory gn ns C).history.length ≤ (NewGroupHistory gn ns C).maxSize := by
    simp [NewGroupHistory]
  have main := foldl_addSample_spec samples (NewGroupHistory gn ns C) base
  have hfin : (samples.foldl addSample (NewGroupHistory gn ns C)).history =
      samples.drop (samples.length - C) := by
    rw [main.1]
    simp [NewGroupHistory]
  refine ⟨hfin, ?_, ?_⟩
  · rw [hfin, List.length_drop]
    omega
  · intro k
    have hk := foldl_addSample_spec (samples.take k) (NewGroupHistory gn ns C) base
    rw [hk.1]
    simp only [List.length_drop, NewGroupHistory, List.nil_append, List.length_nil,
      Nat.zero_add]
    omega

/-! ### Helper lemmas about GetAverage and GetPeak -/

lemma foldl_add_eq (f : ResourceUsage → ℚ) (l : List ResourceUsage) :
    ∀ a : ℚ, l.foldl (fun acc u => acc + f u) a = a + (l.map f).sum := by
  induction l with
  | nil => intro a; simp
  | cons x t ih => intro a; simp [ih, add_assoc]

lemma getAverage_eq (gh : GroupHistory) (h0 : ¬ gh.history.length = 0) :
    GetAverage gh =
      { timestamp := 0,
        cpu := (gh.history.map (fun u => u.cpu)).sum / (gh.history.length : ℚ),
        memory := (gh.history.map (fun u => u.memory)).sum / (gh.history.length : ℚ),
        gpu := (gh.history.map (fun u => u.gpu)).sum / (gh.history.length : ℚ) } := by
  unfold GetAverage
  rw [if_neg h0]
  simp only [foldl_add_eq, zero_add]

lemma peakStep_cpu (p u : ResourceUsage) : (peakStep p u).cpu = max p.cpu u.cpu := by
  show (if u.cpu > p.cpu then u.cpu else p.cpu) = max p.cpu u.cpu
  rcases lt_or_le p.cpu u.cpu with h | h
  · rw [if_pos h, max_eq_right h.le]
  · rw [if_neg (not_lt.2 h), max_eq_left h]

lemma peakStep_memory (p u : ResourceUsage) : (peakStep p u).memory = max p.memory u.memory := by
  show (if u.memory > p.memory then u.memory else p.memory) = max p.memory u.memory
  rcases lt_or_le p.memory u.memory with h | h
  · rw [if_pos h, max_eq_right h.le]
  · rw [if_neg (not_lt.2 h), max_eq_left h]

lemma peakStep_gpu (p u : ResourceUsage) : (peakStep p u).gpu = max p.gpu u.gpu := by
  show (if u.gpu > p.gpu then u.gpu else p.gpu) = max p.gpu u.gpu
  rcases lt_or_le p.gpu u.gpu with h | h
  · rw [if_pos h, max_eq_right h.le]
  · rw [if_neg (not_lt.2 h), max_eq_left h]

lemma foldl_peakStep_proj (f : ResourceUsage → ℚ)
    (hf : ∀ p u, f (peakStep p u) = max (f p) (f u)) (l : List ResourceUsage) :
    ∀ p : ResourceUsage, f (l.foldl peakStep p) = (l.map f).foldl max (f p) := by
  induction l with
  | nil => intro p; rfl
  | cons x t ih =>
    intro p
    rw [List.foldl_cons, List.map_cons, List.foldl_cons, ih, hf]

lemma foldl_max_mem (l : List ℚ) : ∀ a : ℚ, l.foldl max a = a ∨ l.foldl max a ∈ l := by
  induction l with
  | nil => intro a; exact Or.inl rfl
  | cons x t ih =>
    intro a
    rcases ih (max a x) with h | h
    · rcases le_total a x with hax | hax
      · right
        rw [List.foldl_cons, h, max_eq_right hax]
        exact List.mem_cons_self x t
      · left
        rw [List.foldl_cons, h, max_eq_left hax]
    · right
      exact List.mem_cons_of_mem x h

lemma le_foldl_max (l : List ℚ) : ∀ a : ℚ, a ≤ l.foldl max a ∧ ∀ x ∈ l, x ≤ l.foldl max a := by
  induction l with
  | nil => intro a; exact ⟨le_refl a, by simp⟩
  | cons y t ih =>
    intro a
    obtain ⟨h1, h2⟩ := ih (max a y)
    refine ⟨le_trans (le_max_left a y) h1, ?_⟩
    intro x hx
    rcases List.mem_cons.mp hx with rfl | hx
    · exact le_trans (le_max_right a x) h1
    · exact h2 x hx

lemma getPeak_cons (gh : GroupHistory) (p : ResourceUsage) (t : List ResourceUsage)
    (h : gh.history = p :: t) : GetPeak gh = (p :: t).foldl peakStep p := by
  unfold GetPeak
  rw [h]

lemma getPeak_proj_max (f : ResourceUsage → ℚ)
    (hf : ∀ p u, f (peakStep p u) = max (f p) (f u))
    (gh : GroupHistory) (hne : gh.history ≠ []) :
    f (GetPeak gh) ∈ gh.history.map f ∧ ∀ u ∈ gh.history, f u ≤ f (GetPeak gh) := by
  cases h : gh.history with
  | nil => exact absurd h hne
  | cons p t =>
    rw [getPeak_cons gh p t h, foldl_peakStep_proj f hf]
    constructor
    · rcases foldl_max_mem ((p :: t).map f) (f p) with he | hm
      · rw [he]
        exact List.mem_map_of_mem f (List.mem_cons_self p t)
      · exact hm
    · intro u hu
      exact (le_foldl_max ((p :: t).map f) (f p)).2 (f u) (List.mem_map_of_mem f hu)

/-- The three-sample history of the spec's Average example. -/
def avgExample : GroupHistory :=
  ⟨tG, tNS, [⟨1, 100, 2000, 1⟩, ⟨2, 200, 4000, 2⟩, ⟨3, 300, 6000, 3⟩], 10⟩

/-- The two-sample history of the spec's Peak example. -/
def peakExample : GroupHistory :=
  ⟨tG, tNS, [⟨1, 100, 9000, 1⟩, ⟨2, 300, 10, 3⟩], 10⟩

/-- C8: GetAverage is the arithmetic mean of each dimension across all samples
currently held, the all-zero value on an empty History, and the spec's
three-sample example evaluates to (200, 4000, 2). -/
theorem claim_C8_average (gh : GroupHistory) :
    (gh.history = [] → GetAverage gh = { timestamp := 0, cpu := 0, memory := 0, gpu := 0 }) ∧
    (gh.history ≠ [] →
      (GetAverage gh).cpu = (gh.history.map (fun u => u.cpu)).sum / (gh.history.length : ℚ) ∧
      (GetAverage gh).memory =
        (gh.history.map (fun u => u.memory)).sum / (gh.history.length : ℚ) ∧
      (GetAverage gh).gpu = (gh.history.map (fun u => u.gpu)).sum / (gh.history.length : ℚ)) ∧
    GetAverage avgExample = { timestamp := 0, cpu := 200, memory := 4000, gpu := 2 } := by
  refine ⟨fun h => by simp [GetAverage, h], fun h => ?_, ?_⟩
  · have h0 : ¬ gh.history.length = 0 := by
      simpa [List.length_eq_zero] using h
    rw [getAverage_eq gh h0]
    exact ⟨rfl, rfl, rfl⟩
  · rw [getAverage_eq avgExample (by decide)]
    norm_num [avgExample]

/-- Witness for C8 at the empty history and at the spec's example. -/
theorem claim_C8_average_witness :
    GetAverage (NewGroupHistory tG tNS 5) =
      { timestamp := 0, cpu := 0, memory := 0, gpu := 0 } ∧
    (GetAverage avgExample).cpu =
      (avgExample.history.map (fun u => u.cpu)).sum / (avgExample.history.length : ℚ) :=
  ⟨(claim_C8_average (NewGroupHistory tG tNS 5)).1 rfl,
   ((claim_C8_average avgExample).2.1 (by decide)).1⟩

/-- C5 counterexample: with capacity 1 the sample holding the largest observed
cpu value is evicted by the next append, and GetPeak then reports 100 even
though 300 was observed earlier — the peak is over the samples currently held,
not over every value ever observed. -/
theorem claim_C5_counterexample :
    (GetPeak (addSample (addSample (NewGroupHistory tG tNS 1)
        ⟨1, 300, 10, 3⟩) ⟨2, 100, 9000, 1⟩)).cpu = 100 ∧
    max (300 : ℚ) 100 = 300 ∧ ¬ ((100 : ℚ) = 300) := by
  refine ⟨?_, by norm_num, by norm_num⟩
  decide

/-- C5 as corrected: GetPeak is component-wise over the samples currently held:
all-zero on the empty History; on a nonempty History each of cpu, memory, gpu
equals a value attained by some held sample and bounds every held sample (the
maxima may come from different samples); the spec example (100,9000,1) then
(300,10,3) yields peak (300, 9000, 3). -/
theorem claim_C5_peak_componentwise :
    (∀ gh : GroupHistory, gh.history = [] →
      GetPeak gh = { timestamp := 0, cpu := 0, memory := 0, gpu := 0 }) ∧
    (∀ gh : GroupHistory, gh.history ≠ [] →
      ((GetPeak gh).cpu ∈ gh.history.map (fun u => u.cpu) ∧
        ∀ u ∈ gh.history, u.cpu ≤ (GetPeak gh).cpu) ∧
      ((GetPeak gh).memory ∈ gh.history.map (fun u => u.memory) ∧
        ∀ u ∈ gh.history, u.memory ≤ (GetPeak gh).memory) ∧
      ((GetPeak gh).gpu ∈ gh.history.map (fun u => u.gpu) ∧
        ∀ u ∈ gh.history, u.gpu ≤ (GetPeak gh).gpu)) ∧
    ((GetPeak peakExample).cpu = 300 ∧ (GetPeak peakExample).memory = 9000 ∧
      (GetPeak peakExample).gpu = 3) := by
  refine ⟨?_, ?_, ?_⟩
  · intro gh h
    simp [GetPeak, h]
  · intro gh hne
    exact ⟨getPeak_proj_max (fun u => u.cpu) peakStep_cpu gh hne,
      getPeak_proj_max (fun u => u.memory) peakStep_memory gh hne,
      getPeak_proj_max (fun u => u.gpu) peakStep_gpu gh hne⟩
  · exact ⟨by decide, by decide, by decide⟩

/-- Witness for the corrected C5 at the empty history and at the example. -/
theorem claim_C5_peak_componentwise_witness :
    GetPeak (NewGroupHistory tG tNS 3) =
      { timestamp := 0, cpu := 0, memory := 0, gpu := 0 } ∧
    ((GetPeak peakExample).cpu ∈ peakExample.history.map (fun u => u.cpu) ∧
      ∀ u ∈ peakExample.history, u.cpu ≤ (GetPeak peakExample).cpu) :=
  ⟨claim_C5_peak_componentwise.1 (NewGroupHistory tG tNS 3) rfl,
   (claim_C5_peak_componentwise.2.1 peakExample (by decide)).1⟩

/-! ### EstimateResources claims -/

/-- C1: for a registry key holding at least one sample, EstimateResources
succeeds and every dimension of the result is derived from
`0.7 × average + 0.3 × peak`, where average and peak are the History's current
GetAverage and GetPeak values. -/
theorem claim_C1_weighted_estimate (e : ResourceEstimator) (ns g : String)
    (h : GroupHistory) (hfound : findHistory e.histories (estimatorKey ns g) = some h)
    (_hne : h.history ≠ []) :
    EstimateResources e ns g = some
      { cpuMilli := goInt64 ((0.7 * (GetAverage h).cpu + 0.3 * (GetPeak h).cpu) * 1000),
        memoryBytes := goInt64 (0.7 * (GetAverage h).memory + 0.3 * (GetPeak h).memory),
        gpu := if 0 < 0.7 * (GetAverage h).gpu + 0.3 * (GetPeak h).gpu then
            some (goInt64 (0.7 * (GetAverage h).gpu + 0.3 * (GetPeak h).gpu))
          else none } := by
  have hc : (GetAverage h).cpu * 0.7 + (GetPeak h).cpu * 0.3 =
      0.7 * (GetAverage h).cpu + 0.3 * (GetPeak h).cpu := by ring
  have hm : (GetAverage h).memory * 0.7 + (GetPeak h).memory * 0.3 =
      0.7 * (GetAverage h).memory + 0.3 * (GetPeak h).memory := by ring
  have hg : (GetAverage h).gpu * 0.7 + (GetPeak h).gpu * 0.3 =
      0.7 * (GetAverage h).gpu + 0.3 * (GetPeak h).gpu := by ring
  simp only [EstimateResources, hfound, hc, hm, hg, gt_iff_lt]

/-- The estimator and its stored history used by the C1 witness. -/
def c1Estimator : ResourceEstimator := RecordUsage (NewEstimator 5) 1 tNS tG 2 3 1

/-- The single-sample history held by `c1Estimator`. -/
def c1History : GroupHistory := ⟨tG, tNS, [⟨1, 2, 3, 1⟩], 5⟩

/-- Witness for C1 at a one-sample estimator. -/
theorem claim_C1_weighted_estimate_witness :
    EstimateResources c1Estimator tNS tG = some
      { cpuMilli := goInt64 ((0.7 * (GetAverage c1History).cpu +
          0.3 * (GetPeak c1History).cpu) * 1000),
        memoryBytes := goInt64 (0.7 * (GetAverage c1History).memory +
          0.3 * (GetPeak c1History).memory),
        gpu := if 0 < 0.7 * (GetAverage c1History).gpu + 0.3 * (GetPeak c1History).gpu then
            some (goInt64 (0.7 * (GetAverage c1History).gpu + 0.3 * (GetPeak c1History).gpu))
          else none } :=
  claim_C1_weighted_estimate c1Estimator tNS tG c1History (by decide) (by decide)

/-- C10: NotFound is decided purely by registry membership: a present key whose
History is empty succeeds with a 0 milli-core CPU entry, a 0-byte memory entry
and no GPU entry, rather than failing. -/
theorem claim_C10_empty_history_succeeds (e : ResourceEstimator) (ns g : String)
    (h : GroupHistory) (hfound : findHistory e.histories (estimatorKey ns g) = some h)
    (hemp : h.history = []) :
    EstimateResources e ns g = some { cpuMilli := 0, memoryBytes := 0, gpu := none } := by
  have havg : GetAverage h = { timestamp := 0, cpu := 0, memory := 0, gpu := 0 } := by
    simp [GetAverage, hemp]
  have hpk : GetPeak h = { timestamp := 0, cpu := 0, memory := 0, gpu := 0 } := by
    simp [GetPeak, hemp]
  simp only [EstimateResources, hfound, havg, hpk]
  norm_num [goInt64]

/-- Capacity-0 estimator: the single RecordUsage appends and at once evicts,
leaving a registered but empty History. -/
def c10Estimator : ResourceEstimator := RecordUsage (NewEstimator 0) 5 tNS tG 3 4 2

/-- Witness for C10: the capacity-0 scenario succeeds with zero entries. -/
theorem claim_C10_empty_history_succeeds_witness :
    EstimateResources c10Estimator tNS tG =
      some { cpuMilli := 0, memoryBytes := 0, gpu := none } :=
  claim_C10_empty_history_succeeds c10Estimator tNS tG (NewGroupHistory tG tNS 0)
    (by decide) rfl

lemma getAverage_gpu_zero (gh : GroupHistory) (hz : ∀ u ∈ gh.history, u.gpu = 0) :
    (GetAverage gh).gpu = 0 := by
  by_cases h0 : gh.history.length = 0
  · simp [GetAverage, h0]
  · rw [getAverage_eq gh h0]
    have hs : (gh.history.map (fun u => u.gpu)).sum = 0 := by
      refine List.sum_eq_zero ?_
      intro x hx
      rw [List.mem_map] at hx
      obtain ⟨u, hu, he⟩ := hx
      rw [← he]
      exact hz u hu
    simp [hs]

lemma getPeak_gpu_zero (gh : GroupHistory) (hz : ∀ u ∈ gh.history, u.gpu = 0) :
    (GetPeak gh).gpu = 0 := by
  by_cases hne : gh.history = []
  · simp [GetPeak, hne]
  · obtain ⟨hm, _⟩ := getPeak_proj_max (fun u => u.gpu) peakStep_gpu gh hne
    rw [List.mem_map] at hm
    obtain ⟨u, hu, he⟩ := hm
    rw [← he]
    exact hz u hu

/-- C7: the GPU entry of the result is present iff the weighted gpu estimate is
positive, and a History whose every sample has gpu = 0 gets no GPU entry at
all; the CPU and memory entries are unconditional fields of the result. -/
theorem claim_C7_gpu_entry (e : ResourceEstimator) (ns g : String) (h : GroupHistory)
    (hfound : findHistory e.histories (estimatorKey ns g) = some h) :
    ∃ r : ResourceList, EstimateResources e ns g = some r ∧
      (r.gpu.isSome ↔ 0 < 0.7 * (GetAverage h).gpu + 0.3 * (GetPeak h).gpu) ∧
      ((∀ u ∈ h.history, u.gpu = 0) → r.gpu = none) := by
  have hg : (GetAverage h).gpu * 0.7 + (GetPeak h).gpu * 0.3 =
      0.7 * (GetAverage h).gpu + 0.3 * (GetPeak h).gpu := by ring
  refine ⟨{ cpuMilli := goInt64 (((GetAverage h).cpu * 0.7 + (GetPeak h).cpu * 0.3) * 1000),
            memoryBytes := goInt64 ((GetAverage h).memory * 0.7 + (GetPeak h).memory * 0.3),
            gpu := if 0 < 0.7 * (GetAverage h).gpu + 0.3 * (GetPeak h).gpu then
                some (goInt64 (0.7 * (GetAverage h).gpu + 0.3 * (GetPeak h).gpu))
              else none },
          ?_, ?_, ?_⟩
  · simp only [EstimateResources, hfound, hg, gt_iff_lt]
  · split_ifs with hc
    · simpa using hc
    · simpa using hc
  · intro hz
    rw [getAverage_gpu_zero h hz, getPeak_gpu_zero h hz]
    norm_num

/-- A one-sample estimator whose group never used an accelerator. -/
def c7Estimator : ResourceEstimator := RecordUsage (NewEstimator 10) 1 tNS tG 5 6 0

/-- The history held by `c7Estimator`. -/
def c7History : GroupHistory := ⟨tG, tNS, [⟨1, 5, 6, 0⟩], 10⟩

/-- Witness for C7 at a gpu-free group. -/
theorem claim_C7_gpu_entry_witness :
    ∃ r : ResourceList, EstimateResources c7Estimator tNS tG = some r ∧
      (r.gpu.isSome ↔ 0 < 0.7 * (GetAverage c7History).gpu + 0.3 * (GetPeak c7History).gpu) ∧
      ((∀ u ∈ c7History.history, u.gpu = 0) → r.gpu = none) :=
  claim_C7_gpu_entry c7Estimator tNS tG c7History (by decide)

/-- The spec's weighted-estimate scenario: (1000,2000,1) twice, (2000,4000,2)
once. -/
def c4Estimator : ResourceEstimator :=
  RecordUsage (RecordUsage (RecordUsage (NewEstimator 10) 1 tNS tG 1000 2000 1)
    2 tNS tG 1000 2000 1) 3 tNS tG 2000 4000 2

/-- The history held by `c4Estimator`. -/
def c4History : GroupHistory :=
  ⟨tG, tNS, [⟨1, 1000, 2000, 1⟩, ⟨2, 1000, 2000, 1⟩, ⟨3, 2000, 4000, 2⟩], 10⟩

/-- A history whose cpu estimate times 1000 is 2300/3 ≈ 766.67: truncation and
rounding disagree. -/
def c4cEstimator : ResourceEstimator :=
  RecordUsage (RecordUsage (RecordUsage (NewEstimator 10) 1 tNS tG 0 1 0)
    2 tNS tG 1 1 0) 3 tNS tG 1 1 0

/-- The history held by `c4cEstimator`. -/
def c4cHistory : GroupHistory :=
  ⟨tG, tNS, [⟨1, 0, 1, 0⟩, ⟨2, 1, 1, 0⟩, ⟨3, 1, 1, 0⟩], 10⟩

lemma c4cHistory_found :
    findHistory c4cEstimator.histories (estimatorKey tNS tG) = some c4cHistory := by
  decide

lemma c4cHistory_avg :
    GetAverage c4cHistory = { timestamp := 0, cpu := 2/3, memory := 1, gpu := 0 } := by
  rw [getAverage_eq c4cHistory (by decide)]
  norm_num [c4cHistory]

lemma c4cHistory_peak :
    GetPeak c4cHistory = { timestamp := 1, cpu := 1, memory := 1, gpu := 0 } := by
  decide

/-- C4 counterexample: for the samples with cpu 0, 1, 1 the weighted cpu
estimate is 23/30 cores, so estimate × 1000 = 2300/3 ≈ 766.67; the code
reports the truncation 766 milli-cores, while rounding (as the claim states)
would give 767. -/
theorem claim_C4_counterexample :
    EstimateResources c4cEstimator tNS tG =
      some { cpuMilli := 766, memoryBytes := 1, gpu := none } ∧
    round ((0.7 * (GetAverage c4cHistory).cpu + 0.3 * (GetPeak c4cHistory).cpu) * 1000) =
      (767 : ℤ) ∧
    ¬ ((766 : ℤ) = 767) := by
  refine ⟨?_, ?_, by norm_num⟩
  · simp only [EstimateResources, c4cHistory_found, c4cHistory_avg, c4cHistory_peak]
    norm_num [goInt64]
  · rw [c4cHistory_avg, c4cHistory_peak]
    norm_num [round_eq]

/-- C4 corrected: the CPU entry equals the truncation toward zero (Go's int64
conversion) of `estimate_cpu × 1000` — not its rounding — and the memory entry
is the truncation of `estimate_mem`; the concrete scenario (1000,2000,1) twice
and (2000,4000,2) once reports 1533333 milli-cores, within the claimed ±100 of
1,533,330. -/
theorem claim_C4_truncated_millicores :
    (∀ (e : ResourceEstimator) (ns g : String) (h : GroupHistory),
      findHistory e.histories (estimatorKey ns g) = some h →
      ∃ r : ResourceList, EstimateResources e ns g = some r ∧
        r.cpuMilli = goInt64 ((0.7 * (GetAverage h).cpu + 0.3 * (GetPeak h).cpu) * 1000) ∧
        r.memoryBytes = goInt64 (0.7 * (GetAverage h).memory + 0.3 * (GetPeak h).memory)) ∧
    (EstimateResources c4Estimator tNS tG).map ResourceList.cpuMilli = some 1533333 ∧
    (1533333 - 1533330 : ℤ).natAbs ≤ 100 := by
  refine ⟨?_, ?_, by norm_num⟩
  · intro e ns g h hfound
    have hc : (GetAverage h).cpu * 0.7 + (GetPeak h).cpu * 0.3 =
        0.7 * (GetAverage h).cpu + 0.3 * (GetPeak h).cpu := by ring
    have hm : (GetAverage h).memory * 0.7 + (GetPeak h).memory * 0.3 =
        0.7 * (GetAverage h).memory + 0.3 * (GetPeak h).memory := by ring
    exact ⟨{ cpuMilli := goInt64 ((0.7 * (GetAverage h).cpu + 0.3 * (GetPeak h).cpu) * 1000),
             memoryBytes := goInt64 (0.7 * (GetAverage h).memory + 0.3 * (GetPeak h).memory),
             gpu := if (GetAverage h).gpu * 0.7 + (GetPeak h).gpu * 0.3 > 0 then
                 some (goInt64 ((GetAverage h).gpu * 0.7 + (GetPeak h).gpu * 0.3))
               else none },
           by simp only [EstimateResources, hfound, hc, hm], rfl, rfl⟩
  · have hfound : findHistory c4Estimator.histories (estimatorKey tNS tG) =
        some c4History := by decide
    have havg : GetAverage c4History =
        { timestamp := 0, cpu := 4000/3, memory := 8000/3, gpu := 4/3 } := by
      rw [getAverage_eq c4History (by decide)]
      norm_num [c4History]
    have hpk : GetPeak c4History = { timestamp := 1, cpu := 2000, memory := 4000, gpu := 2 } := by
      decide
    simp only [EstimateResources, hfound, havg, hpk, Option.map_some]
    norm_num [goInt64]

/-- Witness for the corrected C4 at the spec's scenario estimator. -/
theorem claim_C4_truncated_millicores_witness :
    ∃ r : ResourceList, EstimateResources c4Estimator tNS tG = some r ∧
      r.cpuMilli = goInt64 ((0.7 * (GetAverage c4History).cpu +
        0.3 * (GetPeak c4History).cpu) * 1000) ∧
      r.memoryBytes = goInt64 (0.7 * (GetAverage c4History).memory +
        0.3 * (GetPeak c4History).memory) :=
  claim_C4_truncated_millicores.1 c4Estimator tNS tG c4History (by decide)

/-! ### Registry membership lemmas -/

lemma updateEntry_cons (p : String × GroupHistory) (l : List (String × GroupHistory))
    (k : String) (f : GroupHistory → GroupHistory) :
    updateEntry (p :: l) k f = (if p.1 = k then (p.1, f p.2) else p) :: updateEntry l k f := rfl

lemma findHistory_cons (p : String × GroupHistory) (l : List (String × GroupHistory))
    (k : String) :
    findHistory (p :: l) k = if p.1 = k then some p.2 else findHistory l k := rfl

lemma findHistory_updateEntry_none (l : List (String × GroupHistory)) (k k' : String)
    (f : GroupHistory → GroupHistory) :
    (findHistory (updateEntry l k f) k' = none ↔ findHistory l k' = none) := by
  induction l with
  | nil => exact Iff.rfl
  | cons p rest ih =>
    rw [updateEntry_cons, findHistory_cons, findHistory_cons]
    by_cases hk : p.1 = k
    · rw [if_pos hk]
      by_cases hk' : p.1 = k'
      · simp [hk']
      · simp [hk', ih]
    · rw [if_neg hk]
      by_cases hk' : p.1 = k'
      · simp [hk']
      · simp [hk', ih]

lemma findHistory_append_none (l m : List (String × GroupHistory)) (k : String) :
    (findHistory (l ++ m) k = none ↔ findHistory l k = none ∧ findHistory m k = none) := by
  induction l with
  | nil => simp [findHistory]
  | cons p rest ih =>
    rw [List.cons_append, findHistory_cons, findHistory_cons]
    by_cases hk : p.1 = k
    · simp [hk]
    · simp [hk, ih]

lemma findHistory_eq_none_iff (l : List (String × GroupHistory)) (k : String) :
    (findHistory l k = none ↔ ∀ p ∈ l, p.1 ≠ k) := by
  induction l with
  | nil => simp [findHistory]
  | cons p rest ih =>
    rw [findHistory_cons]
    by_cases hk : p.1 = k
    · simp [hk]
    · simp [hk, ih]

lemma recordUsage_none_iff (e : ResourceEstimator) (t : ℤ) (ns g : String)
    (c m gp : ℚ) (k : String) :
    (findHistory (RecordUsage e t ns g c m gp).histories k = none ↔
      (findHistory e.histories k = none ∧ ¬ (k = estimatorKey ns g))) := by
  simp only [RecordUsage]
  by_cases hfe : (findHistory e.histories (estimatorKey ns g)).isSome
  · rw [if_pos hfe, findHistory_updateEntry_none]
    constructor
    · intro hn
      refine ⟨hn, fun hk => ?_⟩
      rw [hk] at hn
      rw [hn] at hfe
      simp at hfe
    · exact fun hp => hp.1
  · rw [if_neg hfe, findHistory_updateEntry_none, findHistory_append_none, findHistory_cons]
    have hfe' : findHistory e.histories (estimatorKey ns g) = none := by
      cases hq : findHistory e.histories (estimatorKey ns g)
      · rfl
      · rw [hq] at hfe
        simp at hfe
    constructor
    · rintro ⟨h1, h2⟩
      refine ⟨h1, fun hk => ?_⟩
      rw [if_pos (show (estimatorKey ns g, NewGroupHistory g ns e.maxSize).1 = k from hk.symm)]
        at h2
      exact Option.noConfusion h2
    · rintro ⟨h1, h2⟩
      refine ⟨h1, ?_⟩
      rw [if_neg (show ¬ (estimatorKey ns g, NewGroupHistory g ns e.maxSize).1 = k from
        fun he => h2 he.symm)]
      rfl

lemma applyCalls_none_iff (calls : List RecordCall) (k : String) :
    ∀ e : ResourceEstimator,
      (findHistory (calls.foldl (fun e c =>
          RecordUsage e c.now c.nspace c.groupName c.cpu c.memory c.gpu) e).histories k = none ↔
        (findHistory e.histories k = none ∧
          ∀ c ∈ calls, ¬ (estimatorKey c.nspace c.groupName = k))) := by
  induction calls with
  | nil => intro e; simp
  | cons c rest ih =>
    intro e
    rw [List.foldl_cons, ih, recordUsage_none_iff]
    simp only [List.mem_cons]
    constructor
    · rintro ⟨⟨h1, h2⟩, h3⟩
      refine ⟨h1, fun d hd => ?_⟩
      rcases hd with rfl | hd
      · exact fun he => h2 he.symm
      · exact h3 d hd
    · rintro ⟨h1, h2⟩
      exact ⟨⟨h1, fun he => h2 c (Or.inl rfl) he.symm⟩, fun d hd => h2 d (Or.inr hd)⟩

/-- C3: over any sequence of RecordUsage calls on a fresh estimator,
EstimateResources fails (NotFound, modelled as `none`) exactly when no call
used the queried key; every key some call recorded yields `some` mapping, and
in the model every other operation is a total function — this lookup failure
is the interface's only error. -/
theorem claim_C3_notfound_iff (ms : ℕ) (calls : List RecordCall) (ns g : String) :
    (EstimateResources (applyCalls ms calls) ns g = none ↔
      ∀ c ∈ calls, ¬ (estimatorKey c.nspace c.groupName = estimatorKey ns g)) := by
  have hee : (EstimateResources (applyCalls ms calls) ns g = none ↔
      findHistory (applyCalls ms calls).histories (estimatorKey ns g) = none) := by
    unfold EstimateResources
    cases findHistory (applyCalls ms calls).histories (estimatorKey ns g) <;> simp
  rw [hee]
  unfold applyCalls
  rw [applyCalls_none_iff calls (estimatorKey ns g) (NewEstimator ms)]
  simp [NewEstimator, findHistory]

/-- C9: GetHistory reports not-found exactly when no registry entry carries the
key, and returns the estimator unchanged — it never creates an entry and
modifies no History. -/
theorem claim_C9_gethistory_readonly (e : ResourceEstimator) (ns g : String) :
    ((GetHistory e ns g).1 = none ↔ ∀ p ∈ e.histories, p.1 ≠ estimatorKey ns g) ∧
    (GetHistory e ns g).2 = e :=
  ⟨findHistory_eq_none_iff e.histories (estimatorKey ns g), rfl⟩

/-! ### Retention sweep -/

lemma cleanRemove_eq_specOld (cutoff : ℤ) (p : String × GroupHistory) :
    cleanRemove cutoff p = specOld cutoff p.2 := by
  unfold cleanRemove specOld
  cases hl : p.2.history.getLast? with
  | none => simp
  | some u =>
    have hne : p.2.history ≠ [] := by
      intro he
      rw [he] at hl
      exact Option.noConfusion hl
    simp [List.length_pos.mpr hne]

/-- C6: the sweep removes exactly the entries having a most recent sample older
than `now − maxAge`: the returned count is the number of such entries, an entry
survives iff it is not old in that sense, and an entry with an empty History is
always retained. -/
theorem claim_C6_retention_sweep (e : ResourceEstimator) (now maxAge : ℤ) :
    ((CleanOldHistory e now maxAge).2 =
      (e.histories.filter (fun p => specOld (now - maxAge) p.2)).length) ∧
    (∀ p ∈ e.histories,
      (p ∈ (CleanOldHistory e now maxAge).1.histories ↔
        specOld (now - maxAge) p.2 = false)) ∧
    (∀ p ∈ e.histories, p.2.history = [] →
      p ∈ (CleanOldHistory e now maxAge).1.histories) := by
  refine ⟨?_, ?_, ?_⟩
  · simp only [CleanOldHistory, cleanRemove_eq_specOld]
  · intro p hp
    simp only [CleanOldHistory, List.mem_filter, cleanRemove_eq_specOld]
    constructor
    · rintro ⟨-, hb⟩
      simpa using hb
    · intro hb
      refine ⟨hp, ?_⟩
      simp [hb]
  · intro p hp hemp
    simp only [CleanOldHistory, List.mem_filter]
    refine ⟨hp, ?_⟩
    rw [cleanRemove_eq_specOld]
    simp [specOld, hemp]

/-- A stale entry: its single sample is far older than the sweep cutoff. -/
def c6Old : String × GroupHistory :=
  (estimatorKey tNS "old", ⟨"old", tNS, [⟨50, 1, 1, 0⟩], 5⟩)

/-- A fresh entry: its sample is newer than the sweep cutoff. -/
def c6Fresh : String × GroupHistory :=
  (estimatorKey tNS "fresh", ⟨"fresh", tNS, [⟨95, 1, 1, 0⟩], 5⟩)

/-- An entry with an empty History. -/
def c6Idle : String × GroupHistory :=
  (estimatorKey tNS "idle", ⟨"idle", tNS, [], 5⟩)

/-- A registry holding the three entries above. -/
def c6Estimator : ResourceEstimator := ⟨[c6Old, c6Fresh, c6Idle], 5⟩

/-- Witness for C6 sweeping `c6Estimator` at time 100 with max age 10. -/
theorem claim_C6_retention_sweep_witness :
    ((CleanOldHistory c6Estimator 100 10).2 =
      (c6Estimator.histories.filter (fun p => specOld (100 - 10) p.2)).length) ∧
    (c6Fresh ∈ (CleanOldHistory c6Estimator 100 10).1.histories ↔
      specOld (100 - 10) c6Fresh.2 = false) ∧
    c6Idle ∈ (CleanOldHistory c6Estimator 100 10).1.histories :=
  ⟨(claim_C6_retention_sweep c6Estimator 100 10).1,
   (claim_C6_retention_sweep c6Estimator 100 10).2.1 c6Fresh (by decide),
   (claim_C6_retention_sweep c6Estimator 100 10).2.2 c6Idle (by decide) rfl⟩

/-- Witness for C2: capacity 2 with three appends keeps the last two samples. -/
theorem claim_C2_bounded_fifo_witness :
    (([⟨1, 1, 1, 0⟩, ⟨2, 2, 2, 0⟩, ⟨3, 3, 3, 0⟩] : List ResourceUsage).foldl addSample
        (NewGroupHistory tG tNS 2)).history =
      ([⟨1, 1, 1, 0⟩, ⟨2, 2, 2, 0⟩, ⟨3, 3, 3, 0⟩] : List ResourceUsage).drop
        (([⟨1, 1, 1, 0⟩, ⟨2, 2, 2, 0⟩, ⟨3, 3, 3, 0⟩] : List ResourceUsage).length - 2) :=
  (claim_C2_bounded_fifo 2 tG tNS [⟨1, 1, 1, 0⟩, ⟨2, 2, 2, 0⟩, ⟨3, 3, 3, 0⟩]).1

/-- Witness for C3: a call for a different group leaves the queried key
unrecorded, so the estimate is NotFound. -/
theorem claim_C3_notfound_iff_witness :
    EstimateResources (applyCalls 5 [⟨1, tNS, "other", 1, 1, 0⟩]) tNS tG = none :=
  (claim_C3_notfound_iff 5 [⟨1, tNS, "other", 1, 1, 0⟩] tNS tG).mpr (by decide)

/-- Witness for C9 at the three-entry registry. -/
theorem claim_C9_gethistory_readonly_witness :
    ((GetHistory c6Estimator tNS tG).1 = none ↔
      ∀ p ∈ c6Estimator.histories, p.1 ≠ estimatorKey tNS tG) ∧
    (GetHistory c6Estimator tNS tG).2 = c6Estimator :=
  claim_C9_gethistory_readonly c6Estimator tNS tG
